import Mathlib

/-!
Verification of the fritzctl home-automation command dispatcher
(`fritz/fritzapi.go`) in a shallow embedding.

Modelling conventions:

* Go `error` values are represented by their message `String`; a fallible
  result `(T, error)` becomes `T × Option String` (the option is the error),
  and a result that is `nil` exactly when the error is set becomes
  `Except String T`.
* The HTTP transport, the XML decoder and the response reader are external
  collaborators; their behavior is a parameter of the model (a field of
  `fritzImpl`), so theorems quantify over every possible transport behavior.
* `logger.Success` / `logger.Warn` calls are modelled as a writer log
  (`List String` of the formatted messages), so that "events emitted" and
  "commands executed" are observable in the model.
-/

/-- One smart-home device record as decoded from the gateway listing:
`Name` is the human-facing key, `Identifier` the raw AIN address field. -/
structure Device where
  Name : String
  Identifier : String
  deriving DecidableEq, Repr

/-- The decoded device listing (`Devicelist.Devices`). -/
structure Devicelist where
  Devices : List Device
  deriving DecidableEq, Repr

/-- Outcome of invoking one callable `func() (string, error)`:
the response body string plus the optional error. -/
abbrev Callable := String × Option String

/-- The per-target result record (`result{msg, err}` in the source). -/
structure result where
  msg : String
  err : Option String
  deriving DecidableEq, Repr

/-- Log of observability events (formatted `logger` lines). -/
abbrev Log := List String

/-- Go map `map[string]α`, embedded as an association list whose keys are
kept unique by `mapPut`. Iteration order of the embedding is first-insertion
order (Go map iteration order is unspecified; no claim depends on it). -/
abbrev StrMap (α : Type) := List (String × α)

/-- Lookup `m[k]`: the value stored under `k`, `none` on a miss. -/
def mapGet {α : Type} (m : StrMap α) (k : String) : Option α :=
  (m.find? (fun p => p.1 == k)).map (fun p => p.2)

/-- Store `m[k] = v`: overwrite the existing binding of `k` in place,
otherwise append a new binding (Go map assignment; keys stay unique). -/
def mapPut {α : Type} : StrMap α → String → α → StrMap α
  | [], k, v => [(k, v)]
  | p :: m, k, v => if p.1 == k then (k, v) :: m else p :: mapPut m k v

/-- The key list of a map (`stringutils.StringKeys`). -/
def StringKeys {α : Type} (m : StrMap α) : List String :=
  m.map (fun p => p.1)

/-- Modelled from the spec: `stringutils.Quote` (its source file is not under
`src/`) wraps each known device name in quotes for the "quoted, comma-joined"
hint of the unknown-device error; the quote character used by the model is
the single quote, matching the quoting style of the surrounding messages. -/
def Quote (xs : List String) : List String :=
  xs.map (fun s => "\x27" ++ s ++ "\x27")

/-- Go `strings.Replace(s, " ", "", -1)` with the one-character pattern `" "`:
every occurrence of the space character (U+0020) is deleted; no other
character (in particular no other whitespace character) is touched. -/
def replaceAllSpaces (s : String) : String :=
  ⟨s.data.filter (fun c => c != ' ')⟩

/-- The external collaborators of one `fritzImpl` client, as observable
behavior: `listTransport` is the outcome of the HTTP GET for
`getdevicelistinfos` (the response body handle, or the transport error),
`decode` is the XML decoder's behavior on a body (the partially-filled
`Devicelist` plus the optional decode error, mirroring Go's
`Decoder.Decode` which fills the value and returns an error), and
`exchange ain switchcmd` / `exchangeParam ain switchcmd param` are the
read-fully outcomes of the per-device command GETs. -/
structure fritzImpl where
  listTransport : Except String String
  decode : String → Devicelist × Option String
  exchange : String → String → Callable
  exchangeParam : String → String → String → Callable

/-- `ListDevices` (fritzapi.go:72-81): on transport error return
`(nil, errHTTP)`; otherwise decode the body and return the address of the
(always allocated) `deviceList` together with the decode error. -/
def ListDevices (f : fritzImpl) : Option Devicelist × Option String :=
  match f.listTransport with
  | .error e => (none, some e)
  | .ok body =>
    let dec := f.decode body
    (some dec.1, dec.2)

/-- `getNameToAinTable` (fritzapi.go:193-204): fetch the listing, abort on
its error, otherwise key each device's whitespace-replaced identifier by
its name. In the error-free branch `ListDevices` always returns a list
(fritzapi.go:80), so the `getD` default is never reached. -/
def getNameToAinTable (f : fritzImpl) : Except String (StrMap String) :=
  match ListDevices f with
  | (_, some e) => .error e
  | (devList, none) =>
    .ok (((devList.getD ⟨[]⟩).Devices).foldl
      (fun table dev => mapPut table dev.Name (replaceAllSpaces dev.Identifier)) [])

/-- The table-building loop of `getNameToAinTable` in isolation, for the
claims about the mapping itself. -/
def mkTable (devs : List Device) : StrMap String :=
  devs.foldl (fun table dev => mapPut table dev.Name (replaceAllSpaces dev.Identifier)) []

/-- The unknown-device error message built at fritzapi.go:185-186. -/
def unknownDeviceMessage (name : String) (namesAndAins : StrMap String) : String :=
  "No device found with name \x27" ++ name ++ "\x27. Available devices are " ++
    String.intercalate ", " (Quote (StringKeys namesAndAins))

/-- Whether the lookup of `name` fails the check at fritzapi.go:183-184:
the map misses the name (`!ok`) or holds an empty address (`ain == ""`). -/
def missesName (namesAndAins : StrMap String) (name : String) : Bool :=
  match mapGet namesAndAins name with
  | none => true
  | some ain => ain == ""

/-- The `for _, name := range names` loop of `buildBacklog`
(fritzapi.go:181-189): abort with the unknown-device error at the first
requested name that misses, otherwise store the callable built from the
resolved address under the name. -/
def backlogLoop (namesAndAins : StrMap String) (workFactory : String → Callable) :
    List String → StrMap Callable → Except String (StrMap Callable)
  | [], targets => .ok targets
  | name :: rest, targets =>
    match mapGet namesAndAins name with
    | none => .error (unknownDeviceMessage name namesAndAins)
    | some ain =>
      if ain == "" then .error (unknownDeviceMessage name namesAndAins)
      else backlogLoop namesAndAins workFactory rest (mapPut targets name (workFactory ain))

/-- `buildBacklog` (fritzapi.go:176-191): resolve the directory, then build
one callable per requested name, failing fast on the directory error or on
the first unresolvable name. -/
def buildBacklog (f : fritzImpl) (names : List String) (workFactory : String → Callable) :
    Except String (StrMap Callable) :=
  match getNameToAinTable f with
  | .error e => .error e
  | .ok namesAndAins => backlogLoop namesAndAins workFactory names []

/-- `genericSuccessHandler` (fritzapi.go:145-148): log one success event for
the device and return an error-free result carrying the message. -/
def genericSuccessHandler (key message : String) : Log × result :=
  (["Successfully processed device \x27" ++ key ++ "\x27; response was: " ++ message.trim],
   { msg := message, err := none })

/-- `genericErrorHandler` (fritzapi.go:150-153): log one failure event for
the device and return a result whose error is wrapped as
`error toggling device <key>: <message of err>`. -/
def genericErrorHandler (key message err : String) : Log × result :=
  (["Error while processing device \x27" ++ key ++ "\x27; error was: " ++ err],
   { msg := message, err := some ("error toggling device \x27" ++ key ++ "\x27: " ++ err) })

/-- Modelled from the spec: `scatterGather` (its source file is not under
`src/`) invokes every target's callable, classifies each outcome through the
success or error handler, and collects one result per target together with
the emitted events; the model returns in addition the list of target names
whose callables were executed, so that "zero command executions" is
observable. The parallel scheduling itself is not modelled (see the
concurrency claim); only the collected outcome batch is. -/
def scatterGather (targets : StrMap Callable)
    (successHandler : String → String → Log × result)
    (errorHandler : String → String → String → Log × result) :
    List String × Log × List result :=
  let classified := targets.map (fun t =>
    match t.2.2 with
    | none => successHandler t.1 t.2.1
    | some e => errorHandler t.1 t.2.1 e)
  (targets.map (fun t => t.1), classified.flatMap (fun p => p.1), classified.map (fun p => p.2))

/-- `truncateToOne` (fritzapi.go:162-174): collect the errors of the results
(`stringutils.ErrorMessages` maps each error to its message, the identity in
the string model of errors) and join them with `"; "`; no error when none
of the results carries one. -/
def truncateToOne (results : List result) : Option String :=
  let errs := results.filterMap (fun res => res.err)
  if errs.length > 0 then some (String.intercalate "; " errs) else none

/-- `genericResult` (fritzapi.go:155-160): prefix the joined errors, or
report full success. -/
def genericResult (results : List result) : Option String :=
  match truncateToOne results with
  | some e => some ("Not all devices could be processed! Nested errors are: " ++ e)
  | none => none

/-- `doConcurrently` (fritzapi.go:136-143): build the backlog, abort on its
error with no execution and no event, otherwise execute all targets and
aggregate. Returns (dispatch error, executed target names, event log). -/
def doConcurrently (f : fritzImpl) (workFactory : String → Callable) (names : List String) :
    Option String × List String × Log :=
  match buildBacklog f names workFactory with
  | .error err => (some err, [], [])
  | .ok targets =>
    let gathered := scatterGather targets genericSuccessHandler genericErrorHandler
    (genericResult gathered.2.2, gathered.1, gathered.2.1)

/-- `switchForAin` (fritzapi.go:101-104): one `getWithAin` exchange read
fully, for the given switch command. -/
def switchForAin (f : fritzImpl) (ain command : String) : Callable :=
  f.exchange ain command

/-- `toggleForAin` (fritzapi.go:115-118). -/
def toggleForAin (f : fritzImpl) (ain : String) : Callable :=
  f.exchange ain "setswitchtoggle"

/-- Modelled from the spec: the repository's `math.Round` (its source file
is not under `src/`) rounds to the nearest integer, rounding half away from
zero. Temperature values are modelled as rationals, since every claim about
them concerns exact decimal inputs. -/
def Round (q : ℚ) : ℤ :=
  if 0 ≤ q then ⌊q + 1/2⌋ else ⌈q - 1/2⌉

/-- `temperatureForAin` (fritzapi.go:129-134): double the value, round it,
and transmit the decimal rendering of the rounded value as the `param` of
the `sethkrtsoll` exchange. -/
def temperatureForAin (f : fritzImpl) (ain : String) (value : ℚ) : Callable :=
  f.exchangeParam ain "sethkrtsoll" (toString (Round (2 * value)))

/-- `SwitchOn` (fritzapi.go:84-90). -/
def SwitchOn (f : fritzImpl) (names : List String) : Option String × List String × Log :=
  doConcurrently f (fun ain => switchForAin f ain "setswitchon") names

/-- `SwitchOff` (fritzapi.go:93-99). -/
def SwitchOff (f : fritzImpl) (names : List String) : Option String × List String × Log :=
  doConcurrently f (fun ain => switchForAin f ain "setswitchoff") names

/-- `Toggle` (fritzapi.go:107-113). -/
def Toggle (f : fritzImpl) (names : List String) : Option String × List String × Log :=
  doConcurrently f (fun ain => toggleForAin f ain) names

/-- `Temperature` (fritzapi.go:121-127). -/
def Temperature (f : fritzImpl) (value : ℚ) (names : List String) :
    Option String × List String × Log :=
  doConcurrently f (fun ain => temperatureForAin f ain value) names

/-- The spec's rounding convention, stated independently of `Round`:
round to the nearest integer, with ties (and everything else) computed on
the absolute value and the sign restored — half away from zero. -/
def roundHalfAwayFromZero (q : ℚ) : ℤ :=
  if q < 0 then -⌊|q| + 1/2⌋ else ⌊|q| + 1/2⌋

/-- The spec's whitespace stripping: remove every whitespace character. -/
def stripAllWhitespace (s : String) : String :=
  ⟨s.data.filter (fun c => !c.isWhitespace)⟩

/-- The device listing of the spec's concrete scenario (section 8). -/
def demoDevices : List Device :=
  [⟨"Lamp", "11 657 0018736"⟩, ⟨"Plug", "11 657 0018737"⟩]

/-- A client whose directory fetch succeeds with the demo listing, whose
command exchanges succeed with body `"ok"`, and whose parameterized
exchange echoes the transmitted `param` back, so the transmitted value is
observable in the outcome. -/
def demoClient : fritzImpl where
  listTransport := .ok "listing-body"
  decode := fun _ => (⟨demoDevices⟩, none)
  exchange := fun _ _ => ("ok", none)
  exchangeParam := fun _ _ p => (p, none)

/-- The directory mapping the demo listing resolves to. -/
def demoTable : StrMap String :=
  [("Lamp", "116570018736"), ("Plug", "116570018737")]

/-- A client whose directory fetch fails at the transport. -/
def brokenClient : fritzImpl where
  listTransport := .error "dial tcp: connection refused"
  decode := fun _ => (⟨[]⟩, none)
  exchange := fun _ _ => ("", none)
  exchangeParam := fun _ _ _ => ("", none)

/-- A client whose directory fetch succeeds over transport but whose body
fails to decode. -/
def decodeFailClient : fritzImpl where
  listTransport := .ok "<not-xml"
  decode := fun _ => (⟨[]⟩, some "XML syntax error on line 1")
  exchange := fun _ _ => ("", none)
  exchangeParam := fun _ _ _ => ("", none)

/-- A work factory whose callables all succeed with body `"ok"`. -/
def demoWork : String → Callable := fun _ => ("ok", none)

section MapLemmas

variable {α : Type}

theorem mapGet_nil (k : String) : mapGet ([] : StrMap α) k = none := rfl

theorem mapGet_cons (p : String × α) (m : StrMap α) (k : String) :
    mapGet (p :: m) k = if p.1 == k then some p.2 else mapGet m k := by
  simp only [mapGet, List.find?_cons]
  cases h : (p.1 == k) <;> simp [h]

theorem mapGet_mapPut_self (m : StrMap α) (k : String) (v : α) :
    mapGet (mapPut m k v) k = some v := by
  induction m with
  | nil => simp [mapPut, mapGet_cons]
  | cons p m ih =>
    by_cases hpk : (p.1 == k) = true
    · simp [mapPut, hpk, mapGet_cons]
    · have hpk' : (p.1 == k) = false := by simpa using hpk
      simp [mapPut, hpk', mapGet_cons, ih]

theorem mapGet_mapPut_ne (m : StrMap α) (k : String) (v : α) (x : String) (h : x ≠ k) :
    mapGet (mapPut m k v) x = mapGet m x := by
  have hkx : (k == x) = false := by simpa using fun hc => h hc.symm
  induction m with
  | nil => simp [mapPut, mapGet_cons, hkx, mapGet]
  | cons p m ih =>
    by_cases hpk : (p.1 == k) = true
    · have hp : p.1 = k := by simpa using hpk
      have hpx : (p.1 == x) = false := by simp [hp, hkx]
      simp [mapPut, hpk, mapGet_cons, hkx, hpx]
    · have hpk' : (p.1 == k) = false := by simpa using hpk
      cases hpx : (p.1 == x) <;> simp [mapPut, hpk', mapGet_cons, hpx, ih]

theorem StringKeys_cons (p : String × α) (m : StrMap α) :
    StringKeys (p :: m) = p.1 :: StringKeys m := rfl

theorem StringKeys_mapPut (m : StrMap α) (k : String) (v : α) :
    StringKeys (mapPut m k v) =
      if k ∈ StringKeys m then StringKeys m else StringKeys m ++ [k] := by
  induction m with
  | nil => simp [mapPut, StringKeys]
  | cons p m ih =>
    by_cases hpk : (p.1 == k) = true
    · have hp : p.1 = k := by simpa using hpk
      simp [mapPut, hpk, StringKeys_cons, hp]
    · have hpk' : (p.1 == k) = false := by simpa using hpk
      have hne : p.1 ≠ k := by simpa using hpk'
      have hp : ¬(k = p.1) := fun hc => hne hc.symm
      by_cases hmem : k ∈ StringKeys m
      · simp [mapPut, hpk', StringKeys_cons, ih, hmem, List.mem_cons, hp]
      · simp [mapPut, hpk', StringKeys_cons, ih, hmem, List.mem_cons, hp]

theorem mem_StringKeys_mapPut (m : StrMap α) (k : String) (v : α) (x : String) :
    x ∈ StringKeys (mapPut m k v) ↔ x ∈ StringKeys m ∨ x = k := by
  rw [StringKeys_mapPut]
  by_cases hmem : k ∈ StringKeys m
  · simp only [hmem, if_true]
    constructor
    · exact fun h => Or.inl h
    · rintro (h | rfl)
      · exact h
      · exact hmem
  · simp [hmem]

theorem nodup_StringKeys_mapPut (m : StrMap α) (k : String) (v : α)
    (h : (StringKeys m).Nodup) : (StringKeys (mapPut m k v)).Nodup := by
  rw [StringKeys_mapPut]
  by_cases hmem : k ∈ StringKeys m
  · simpa [hmem] using h
  · simp [hmem, List.nodup_append, h]

theorem mem_mapPut (m : StrMap α) (k : String) (v : α) (t : String × α)
    (h : t ∈ mapPut m k v) : t ∈ m ∨ t = (k, v) := by
  induction m with
  | nil => simpa [mapPut] using h
  | cons p m ih =>
    by_cases hpk : (p.1 == k) = true
    · simp only [mapPut, hpk, if_true] at h
      rcases List.mem_cons.mp h with h | h
      · exact Or.inr h
      · exact Or.inl (List.mem_cons_of_mem _ h)
    · have hpk' : (p.1 == k) = false := by simpa using hpk
      simp only [mapPut, hpk', Bool.false_eq_true, if_false] at h
      rcases List.mem_cons.mp h with h | h
      · exact Or.inl (h ▸ List.mem_cons_self _ _)
      · rcases ih h with h | h
        · exact Or.inl (List.mem_cons_of_mem _ h)
        · exact Or.inr h

end MapLemmas

section TableLemmas

theorem mkTable_concat (devs : List Device) (d : Device) :
    mkTable (devs ++ [d]) = mapPut (mkTable devs) d.Name (replaceAllSpaces d.Identifier) := by
  simp [mkTable, List.foldl_append]

theorem mapGet_mkTable (devs : List Device) (name : String) :
    mapGet (mkTable devs) name =
      (devs.reverse.find? (fun d => d.Name == name)).map
        (fun d => replaceAllSpaces d.Identifier) := by
  induction devs using List.reverseRecOn with
  | nil => rfl
  | append_singleton l d ih =>
    rw [mkTable_concat, List.reverse_append]
    by_cases h : (d.Name == name) = true
    · have hname : name = d.Name := by
        have := (beq_iff_eq).mp h
        exact this.symm
      subst hname
      simp [mapGet_mapPut_self, List.find?_cons, h]
    · have h' : (d.Name == name) = false := by simpa using h
      have hdn : d.Name ≠ name := by simpa using h'
      have hne : name ≠ d.Name := fun hc => hdn hc.symm
      simp [mapGet_mapPut_ne _ _ _ _ hne, List.find?_cons, h', ih]

theorem nodup_StringKeys_mkTable (devs : List Device) :
    (StringKeys (mkTable devs)).Nodup := by
  induction devs using List.reverseRecOn with
  | nil => simp [mkTable, StringKeys]
  | append_singleton l d ih =>
    rw [mkTable_concat]
    exact nodup_StringKeys_mapPut _ _ _ ih

theorem space_not_mem_replaceAllSpaces (s : String) : ' ' ∉ (replaceAllSpaces s).data := by
  intro h
  rcases List.mem_filter.mp h with ⟨-, hc⟩
  simp at hc

end TableLemmas

section BacklogLemmas

theorem backlogLoop_err (table : StrMap String) (wf : String → Callable)
    (names : List String) (acc : StrMap Callable) (bad : String)
    (h : names.find? (missesName table) = some bad) :
    backlogLoop table wf names acc = .error (unknownDeviceMessage bad table) := by
  induction names generalizing acc with
  | nil => simp at h
  | cons n rest ih =>
    rw [List.find?_cons] at h
    cases hm : missesName table n with
    | true =>
      rw [hm] at h
      have hbad : n = bad := by simpa using h
      subst hbad
      cases hg : mapGet table n with
      | none => simp [backlogLoop, hg]
      | some ain =>
        have hempty : (ain == "") = true := by simpa [missesName, hg] using hm
        simp [backlogLoop, hg, hempty]
    | false =>
      rw [hm] at h
      cases hg : mapGet table n with
      | none =>
        have htrue : missesName table n = true := by unfold missesName; rw [hg]
        simp [htrue] at hm
      | some ain =>
        have hne : (ain == "") = false := by simpa [missesName, hg] using hm
        simp only [backlogLoop, hg, hne, Bool.false_eq_true, if_false]
        exact ih _ h

theorem backlogLoop_ok (table : StrMap String) (wf : String → Callable)
    (names : List String) (acc : StrMap Callable)
    (h : ∀ n ∈ names, missesName table n = false) :
    ∃ ts, backlogLoop table wf names acc = .ok ts ∧
      ((StringKeys acc).Nodup → (StringKeys ts).Nodup) ∧
      (∀ x, x ∈ StringKeys ts ↔ x ∈ StringKeys acc ∨ x ∈ names) ∧
      (∀ t ∈ ts, t ∈ acc ∨ ∃ ain, mapGet table t.1 = some ain ∧ t.2 = wf ain) := by
  induction names generalizing acc with
  | nil =>
    refine ⟨acc, rfl, fun hn => hn, ?_, fun t ht => Or.inl ht⟩
    intro x
    simp
  | cons n rest ih =>
    have hn : missesName table n = false := h n (List.mem_cons_self _ _)
    cases hg : mapGet table n with
    | none =>
      have htrue : missesName table n = true := by unfold missesName; rw [hg]
      simp [htrue] at hn
    | some ain =>
      have hne : (ain == "") = false := by simpa [missesName, hg] using hn
      rcases ih (mapPut acc n (wf ain)) (fun m hm => h m (List.mem_cons_of_mem _ hm)) with
        ⟨ts, hts, hnd, hmem, hval⟩
      refine ⟨ts, ?_, ?_, ?_, ?_⟩
      · simp only [backlogLoop, hg, hne, Bool.false_eq_true, if_false]
        exact hts
      · intro hacc
        exact hnd (nodup_StringKeys_mapPut _ _ _ hacc)
      · intro x
        rw [hmem x, mem_StringKeys_mapPut]
        constructor
        · rintro ((hx | rfl) | hx)
          · exact Or.inl hx
          · exact Or.inr (List.mem_cons_self _ _)
          · exact Or.inr (List.mem_cons_of_mem _ hx)
        · rintro (hx | hx)
          · exact Or.inl (Or.inl hx)
          · rcases List.mem_cons.mp hx with rfl | hx
            · exact Or.inl (Or.inr rfl)
            · exact Or.inr hx
      · intro t ht
        rcases hval t ht with hacc | hwf
        · rcases mem_mapPut _ _ _ _ hacc with hacc | rfl
          · exact Or.inl hacc
          · exact Or.inr ⟨ain, hg, rfl⟩
        · exact Or.inr hwf

end BacklogLemmas

section AggregationLemmas

theorem scatterGather_executed (ts : StrMap Callable)
    (sh : String → String → Log × result) (eh : String → String → String → Log × result) :
    (scatterGather ts sh eh).1 = ts.map (fun t => t.1) := rfl

theorem scatterGather_results (ts : StrMap Callable) :
    (scatterGather ts genericSuccessHandler genericErrorHandler).2.2 =
      ts.map (fun t =>
        match t.2.2 with
        | none => { msg := t.2.1, err := none }
        | some e =>
          { msg := t.2.1,
            err := some ("error toggling device \x27" ++ t.1 ++ "\x27: " ++ e) }) := by
  simp only [scatterGather, List.map_map]
  refine List.map_congr_left ?_
  rintro ⟨name, msg, err⟩ _
  cases err <;> rfl

theorem scatterGather_log (ts : StrMap Callable) :
    (scatterGather ts genericSuccessHandler genericErrorHandler).2.1 =
      ts.map (fun t =>
        match t.2.2 with
        | none => "Successfully processed device \x27" ++ t.1 ++ "\x27; response was: " ++ t.2.1.trim
        | some e => "Error while processing device \x27" ++ t.1 ++ "\x27; error was: " ++ e) := by
  induction ts with
  | nil => rfl
  | cons t ts ih =>
    rcases t with ⟨name, msg, err⟩
    cases err with
    | none =>
      simpa [scatterGather, genericSuccessHandler] using ih
    | some e =>
      simpa [scatterGather, genericErrorHandler] using ih

theorem scatterGather_errs (ts : StrMap Callable) :
    ((scatterGather ts genericSuccessHandler genericErrorHandler).2.2).filterMap
        (fun r => r.err) =
      ts.filterMap (fun t =>
        t.2.2.map (fun e => "error toggling device \x27" ++ t.1 ++ "\x27: " ++ e)) := by
  rw [scatterGather_results, List.filterMap_map]
  refine List.filterMap_congr ?_
  rintro ⟨name, msg, err⟩ _
  cases err <;> rfl

theorem truncateToOne_eq_none_iff (rs : List result) :
    truncateToOne rs = none ↔ ∀ r ∈ rs, r.err = none := by
  simp only [truncateToOne]
  by_cases h : (rs.filterMap (fun res => res.err)).length > 0
  · simp only [h, if_true]
    constructor
    · intro hc; cases hc
    · intro hall
      have : rs.filterMap (fun res => res.err) = [] := by
        rw [List.filterMap_eq_nil_iff]
        exact hall
      rw [this] at h
      simp at h
  · simp only [h, if_false]
    have hnil : rs.filterMap (fun res => res.err) = [] := by
      rcases List.eq_nil_or_concat (rs.filterMap (fun res => res.err)) with hn | ⟨l, a, hc⟩
      · exact hn
      · exfalso
        apply h
        rw [hc]
        simp
    constructor
    · intro _
      exact (List.filterMap_eq_nil_iff).mp hnil
    · intro _
      trivial

theorem genericResult_eq_none_iff (rs : List result) :
    genericResult rs = none ↔ truncateToOne rs = none := by
  unfold genericResult
  cases h : truncateToOne rs <;> simp [h]

end AggregationLemmas

section RoundLemmas

theorem Round_eq_roundHalfAwayFromZero (q : ℚ) : Round q = roundHalfAwayFromZero q := by
  unfold Round roundHalfAwayFromZero
  by_cases h : q < 0
  · have h0 : ¬(0 ≤ q) := not_le.mpr h
    rw [if_neg h0, if_pos h, abs_of_neg h]
    have hq : q - 1 / 2 = -(-q + 1 / 2) := by ring
    rw [hq, Int.ceil_neg]
  · have h0 : 0 ≤ q := not_lt.mp h
    rw [if_pos h0, if_neg h, abs_of_nonneg h0]

theorem Round_two_mul_213_div_10 : Round (2 * (213 / 10 : ℚ)) = 43 := by
  have h0 : (0 : ℚ) ≤ 2 * (213 / 10) := by norm_num
  rw [Round, if_pos h0]
  rw [Int.floor_eq_iff]
  norm_num

theorem Round_two_mul_2125_div_100 : Round (2 * (2125 / 100 : ℚ)) = 43 := by
  have h0 : (0 : ℚ) ≤ 2 * (2125 / 100) := by norm_num
  rw [Round, if_pos h0]
  rw [Int.floor_eq_iff]
  norm_num

end RoundLemmas

section DispatchLemmas

theorem doConcurrently_err_of_table_err (f : fritzImpl) (wf : String → Callable)
    (names : List String) (e : String) (h : getNameToAinTable f = .error e) :
    doConcurrently f wf names = (some e, [], []) := by
  unfold doConcurrently buildBacklog
  simp only [h]

theorem doConcurrently_unknown (f : fritzImpl) (wf : String → Callable)
    (names : List String) (table : StrMap String) (bad : String)
    (htable : getNameToAinTable f = .ok table)
    (hbad : names.find? (missesName table) = some bad) :
    doConcurrently f wf names = (some (unknownDeviceMessage bad table), [], []) := by
  unfold doConcurrently buildBacklog
  simp only [htable, backlogLoop_err table wf names [] bad hbad]

theorem getNameToAinTable_err (f : fritzImpl) (e : String)
    (herr : f.listTransport = .error e ∨
      ∃ body, f.listTransport = .ok body ∧ (f.decode body).2 = some e) :
    getNameToAinTable f = .error e := by
  rcases herr with h | ⟨body, hb, hd⟩
  · unfold getNameToAinTable ListDevices
    rw [h]
  · unfold getNameToAinTable ListDevices
    rw [hb]
    show (match (some (f.decode body).1, (f.decode body).2) with
      | (_, some e) => Except.error e
      | (devList, none) =>
        Except.ok (((devList.getD ⟨[]⟩).Devices).foldl
          (fun table dev => mapPut table dev.Name (replaceAllSpaces dev.Identifier)) [])) =
      Except.error e
    rw [hd]

end DispatchLemmas

/-- C1: for every dispatch (SwitchOn, SwitchOff, Toggle, Temperature) whose
requested name list contains at least one name that is absent from the
resolved directory mapping or maps to an empty address (`bad` being the
first such name in request order), the dispatch returns an error whose
message names that missing device and lists every known device name quoted
and comma-joined, and no target's callable is executed and no event is
emitted for the whole batch. -/
theorem unknown_name_aborts_dispatch (f : fritzImpl) (value : ℚ) (names : List String)
    (table : StrMap String) (bad : String)
    (htable : getNameToAinTable f = .ok table)
    (hbad : names.find? (missesName table) = some bad) :
    SwitchOn f names =
      (some ("No device found with name \x27" ++ bad ++ "\x27. Available devices are " ++
        String.intercalate ", " (Quote (StringKeys table))), [], []) ∧
    SwitchOff f names =
      (some ("No device found with name \x27" ++ bad ++ "\x27. Available devices are " ++
        String.intercalate ", " (Quote (StringKeys table))), [], []) ∧
    Toggle f names =
      (some ("No device found with name \x27" ++ bad ++ "\x27. Available devices are " ++
        String.intercalate ", " (Quote (StringKeys table))), [], []) ∧
    Temperature f value names =
      (some ("No device found with name \x27" ++ bad ++ "\x27. Available devices are " ++
        String.intercalate ", " (Quote (StringKeys table))), [], []) :=
  ⟨doConcurrently_unknown f _ names table bad htable hbad,
   doConcurrently_unknown f _ names table bad htable hbad,
   doConcurrently_unknown f _ names table bad htable hbad,
   doConcurrently_unknown f _ names table bad htable hbad⟩

/-- Witness for `unknown_name_aborts_dispatch`: the spec's concrete scenario
`dispatch(switch-on, ["Lamp","Fan"])` against the demo directory. -/
theorem unknown_name_aborts_dispatch_witness :
    getNameToAinTable demoClient = .ok demoTable ∧
    (["Lamp", "Fan"].find? (missesName demoTable) = some "Fan") ∧
    SwitchOn demoClient ["Lamp", "Fan"] =
      (some ("No device found with name \x27" ++ "Fan" ++ "\x27. Available devices are " ++
        String.intercalate ", " (Quote (StringKeys demoTable))), [], []) ∧
    Temperature demoClient 21 ["Lamp", "Fan"] =
      (some ("No device found with name \x27" ++ "Fan" ++ "\x27. Available devices are " ++
        String.intercalate ", " (Quote (StringKeys demoTable))), [], []) := by
  have h := unknown_name_aborts_dispatch demoClient 21 ["Lamp", "Fan"] demoTable "Fan"
    rfl (by decide)
  exact ⟨rfl, by decide, h.1, h.2.2.2⟩

/-- C2: for every dispatch, if the directory fetch fails — at the transport
or at decoding — the dispatch returns exactly that error unchanged, no
target is built (the executed-targets list is empty) and no command request
is sent and no event emitted. -/
theorem directory_failure_aborts_dispatch (f : fritzImpl) (value : ℚ)
    (names : List String) (e : String)
    (herr : f.listTransport = .error e ∨
      ∃ body, f.listTransport = .ok body ∧ (f.decode body).2 = some e) :
    SwitchOn f names = (some e, [], []) ∧
    SwitchOff f names = (some e, [], []) ∧
    Toggle f names = (some e, [], []) ∧
    Temperature f value names = (some e, [], []) :=
  have htab : getNameToAinTable f = .error e := getNameToAinTable_err f e herr
  ⟨doConcurrently_err_of_table_err f _ names e htab,
   doConcurrently_err_of_table_err f _ names e htab,
   doConcurrently_err_of_table_err f _ names e htab,
   doConcurrently_err_of_table_err f _ names e htab⟩

/-- Witness for `directory_failure_aborts_dispatch`: a client whose device
listing GET fails at the transport. -/
theorem directory_failure_aborts_dispatch_witness :
    (brokenClient.listTransport = .error "dial tcp: connection refused" ∨
      ∃ body, brokenClient.listTransport = .ok body ∧
        (brokenClient.decode body).2 = some "dial tcp: connection refused") ∧
    SwitchOn brokenClient ["Lamp"] = (some "dial tcp: connection refused", [], []) ∧
    Toggle brokenClient ["Lamp"] = (some "dial tcp: connection refused", [], []) := by
  have h := directory_failure_aborts_dispatch brokenClient 21 ["Lamp"]
    "dial tcp: connection refused" (Or.inl rfl)
  exact ⟨Or.inl rfl, h.1, h.2.2.1⟩

/-- C10: when the device-list fetch succeeds over transport but decoding of
the body fails, `ListDevices` returns the (always allocated) decoded value
together with the decode error: the first component is `some`, never `none`,
alongside a `some` error. -/
theorem listdevices_decode_failure_returns_list (f : fritzImpl) (body e : String)
    (htrans : f.listTransport = .ok body) (hdec : (f.decode body).2 = some e) :
    ListDevices f = (some (f.decode body).1, some e) := by
  unfold ListDevices
  rw [htrans]
  show (some (f.decode body).1, (f.decode body).2) = (some (f.decode body).1, some e)
  rw [hdec]

/-- Witness for `listdevices_decode_failure_returns_list`: a client whose
listing body fails XML decoding. -/
theorem listdevices_decode_failure_returns_list_witness :
    decodeFailClient.listTransport = .ok "<not-xml" ∧
    (decodeFailClient.decode "<not-xml").2 = some "XML syntax error on line 1" ∧
    ListDevices decodeFailClient =
      (some (decodeFailClient.decode "<not-xml").1, some "XML syntax error on line 1") :=
  ⟨rfl, rfl,
   listdevices_decode_failure_returns_list decodeFailClient "<not-xml"
     "XML syntax error on line 1" rfl rfl⟩

/-- C3: for every batch of outcomes handed to the aggregator in which at
least one outcome carries an error, each erring outcome is wrapped as
`error toggling device <name>: <original message>` — this wording for every
command kind, the handlers being command-independent — and the combined
error is the wrapped messages joined with `"; "` and prefixed with
`Not all devices could be processed! Nested errors are: `. -/
theorem aggregator_wraps_and_joins (ts : StrMap Callable)
    (h : ∃ t ∈ ts, t.2.2 ≠ none) :
    genericResult (scatterGather ts genericSuccessHandler genericErrorHandler).2.2 =
      some ("Not all devices could be processed! Nested errors are: " ++
        String.intercalate "; " (ts.filterMap (fun t =>
          t.2.2.map (fun e => "error toggling device \x27" ++ t.1 ++ "\x27: " ++ e)))) := by
  obtain ⟨t, ht, hne⟩ := h
  obtain ⟨e, he⟩ := Option.ne_none_iff_exists'.mp hne
  have hmem : ("error toggling device \x27" ++ t.1 ++ "\x27: " ++ e) ∈
      ts.filterMap (fun t =>
        t.2.2.map (fun e => "error toggling device \x27" ++ t.1 ++ "\x27: " ++ e)) :=
    List.mem_filterMap.mpr ⟨t, ht, by rw [he]; rfl⟩
  have hlen : 0 < (ts.filterMap (fun t =>
      t.2.2.map (fun e => "error toggling device \x27" ++ t.1 ++ "\x27: " ++ e))).length :=
    List.length_pos.mpr (List.ne_nil_of_mem hmem)
  have htrunc : truncateToOne (scatterGather ts genericSuccessHandler genericErrorHandler).2.2 =
      some (String.intercalate "; " (ts.filterMap (fun t =>
        t.2.2.map (fun e => "error toggling device \x27" ++ t.1 ++ "\x27: " ++ e)))) := by
    unfold truncateToOne
    rw [scatterGather_errs]
    simp only [hlen, if_true]
  unfold genericResult
  rw [htrunc]

/-- Witness for `aggregator_wraps_and_joins`: one failing outcome. -/
theorem aggregator_wraps_and_joins_witness :
    (∃ t ∈ ([("Office", ("", some "device not present"))] : StrMap Callable),
      t.2.2 ≠ none) ∧
    genericResult (scatterGather [("Office", ("", some "device not present"))]
        genericSuccessHandler genericErrorHandler).2.2 =
      some ("Not all devices could be processed! Nested errors are: " ++
        String.intercalate "; "
          (([("Office", ("", some "device not present"))] : StrMap Callable).filterMap
            (fun t => t.2.2.map
              (fun e => "error toggling device \x27" ++ t.1 ++ "\x27: " ++ e)))) :=
  ⟨by decide,
   aggregator_wraps_and_joins [("Office", ("", some "device not present"))] (by decide)⟩

/-- C4: the aggregator's fold returns no error if and only if no outcome in
the batch carried an error. -/
theorem aggregator_none_iff_no_errors (ts : StrMap Callable) :
    genericResult (scatterGather ts genericSuccessHandler genericErrorHandler).2.2 = none ↔
      ∀ t ∈ ts, t.2.2 = none := by
  rw [genericResult_eq_none_iff, truncateToOne_eq_none_iff, scatterGather_results]
  constructor
  · intro h t ht
    have hr := h _ (List.mem_map_of_mem (fun t =>
      match t.2.2 with
      | none => ({ msg := t.2.1, err := none } : result)
      | some e =>
        ({ msg := t.2.1,
           err := some ("error toggling device \x27" ++ t.1 ++ "\x27: " ++ e) } : result)) ht)
    rcases t with ⟨name, msgv, errv⟩
    cases errv with
    | none => rfl
    | some e => simp at hr
  · intro h r hr
    rcases List.mem_map.mp hr with ⟨t, ht, rfl⟩
    have ht2 := h t ht
    rcases t with ⟨name, msgv, errv⟩
    cases errv with
    | none => rfl
    | some e => simp at ht2

/-- C5: for every temperature input, the numeric parameter transmitted by
the set-temperature callable equals `round(2 * value)` with rounding half
away from zero; in particular input 21.3 transmits "43" and the tie 21.25
(doubled: 42.5) also transmits "43" — neither truncation (42) nor banker's
rounding (42) of the tie. -/
theorem temperature_transmits_half_away_rounded :
    (∀ (f : fritzImpl) (ain : String) (value : ℚ),
      temperatureForAin f ain value =
        f.exchangeParam ain "sethkrtsoll" (toString (roundHalfAwayFromZero (2 * value)))) ∧
    (temperatureForAin demoClient "116570018736" (213 / 10)).1 = "43" ∧
    (temperatureForAin demoClient "116570018736" (2125 / 100)).1 = "43" := by
  refine ⟨?_, ?_, ?_⟩
  · intro f ain value
    unfold temperatureForAin
    rw [Round_eq_roundHalfAwayFromZero]
  · show toString (Round (2 * (213 / 10 : ℚ))) = "43"
    rw [Round_two_mul_213_div_10]
    rfl
  · show toString (Round (2 * (2125 / 100 : ℚ))) = "43"
    rw [Round_two_mul_2125_div_100]
    rfl

/-- C6 counterexample: the claim says the mapping is built by removing all
whitespace, every whitespace character included; but for a device whose
identifier contains a tab, the built mapping keeps the tab — only the space
character is removed — so the mapping differs from the all-whitespace-
stripped one. -/
theorem mapping_strips_spaces_only_cex :
    mapGet (mkTable [⟨"Dev", "a\tb"⟩]) "Dev" = some "a\tb" ∧
    stripAllWhitespace "a\tb" = "ab" ∧
    mkTable [⟨"Dev", "a\tb"⟩] ≠ [("Dev", stripAllWhitespace "a\tb")] :=
  ⟨by decide, by decide, by decide⟩

/-- C6 amended: for every successfully fetched device listing, the
name-to-address mapping is built by removing every occurrence of the space
character (U+0020) — and only the space character, other whitespace is
kept — from the raw address field of a device with that name, keying by
device name. -/
theorem mapping_strips_spaces_only (devs : List Device) (name v : String)
    (h : mapGet (mkTable devs) name = some v) :
    ∃ d ∈ devs, d.Name = name ∧ v = replaceAllSpaces d.Identifier ∧
      ' ' ∉ v.data ∧ ∀ c ∈ d.Identifier.data, c ≠ ' ' → c ∈ v.data := by
  rw [mapGet_mkTable] at h
  cases hf : devs.reverse.find? (fun d => d.Name == name) with
  | none =>
    rw [hf] at h
    simp at h
  | some d =>
    rw [hf] at h
    have hv : v = replaceAllSpaces d.Identifier := by
      have := Option.some.inj h
      exact this.symm
    have hd : d ∈ devs := List.mem_reverse.mp (List.mem_of_find?_eq_some hf)
    have hname : d.Name = name := by simpa using List.find?_some hf
    subst hv
    refine ⟨d, hd, hname, rfl, space_not_mem_replaceAllSpaces _, ?_⟩
    intro c hc hcne
    exact List.mem_filter.mpr ⟨hc, by simp [hcne]⟩

/-- Witness for `mapping_strips_spaces_only`: the demo listing, whose
space-separated identifiers lose exactly their spaces. -/
theorem mapping_strips_spaces_only_witness :
    mapGet (mkTable demoDevices) "Lamp" = some "116570018736" ∧
    ∃ d ∈ demoDevices, d.Name = "Lamp" ∧ "116570018736" = replaceAllSpaces d.Identifier ∧
      ' ' ∉ ("116570018736" : String).data ∧
      ∀ c ∈ d.Identifier.data, c ≠ ' ' → c ∈ ("116570018736" : String).data :=
  ⟨by decide, mapping_strips_spaces_only demoDevices "Lamp" "116570018736" (by decide)⟩

/-- C7 counterexample: a requested name repeated in the input does not
produce one outcome per occurrence: dispatching `["Lamp", "Lamp"]` builds a
single target (the targets live in a name-keyed map) and the aggregator
consumes a single outcome, not two. -/
theorem one_outcome_per_distinct_name_cex :
    buildBacklog demoClient ["Lamp", "Lamp"] demoWork = .ok [("Lamp", ("ok", none))] ∧
    (scatterGather [("Lamp", ("ok", none))]
      genericSuccessHandler genericErrorHandler).2.2.length ≠
      (["Lamp", "Lamp"] : List String).length :=
  ⟨rfl, by decide⟩

/-- C7 amended: for every requested name list in which every name resolves,
the batch of outcomes consumed by the aggregator contains exactly one
outcome per *distinct* requested name — its cardinality equals the number
of distinct names in the input list (a name repeated in the input produces
a single outcome and a single success event, not one per occurrence). -/
theorem one_outcome_per_distinct_name (f : fritzImpl) (wf : String → Callable)
    (names : List String) (table : StrMap String)
    (htable : getNameToAinTable f = .ok table)
    (hres : ∀ n ∈ names, missesName table n = false) :
    ∃ ts, buildBacklog f names wf = .ok ts ∧
      (StringKeys ts).Nodup ∧
      (∀ x, x ∈ StringKeys ts ↔ x ∈ names) ∧
      ts.length = names.dedup.length ∧
      (scatterGather ts genericSuccessHandler genericErrorHandler).2.2.length =
        names.dedup.length ∧
      ((∀ ain, (wf ain).2 = none) →
        (scatterGather ts genericSuccessHandler genericErrorHandler).2.1 =
          ts.map (fun t =>
            "Successfully processed device \x27" ++ t.1 ++ "\x27; response was: " ++
              t.2.1.trim)) := by
  rcases backlogLoop_ok table wf names [] hres with ⟨ts, hts, hnd, hmem, hval⟩
  have hbuild : buildBacklog f names wf = .ok ts := by
    unfold buildBacklog
    simp only [htable]
    exact hts
  have hnodup : (StringKeys ts).Nodup := hnd (by simp [StringKeys])
  have hmem' : ∀ x, x ∈ StringKeys ts ↔ x ∈ names := by
    intro x
    rw [hmem x]
    simp [StringKeys]
  have hperm : List.Perm (StringKeys ts) names.dedup := by
    rw [List.perm_ext_iff_of_nodup hnodup names.nodup_dedup]
    intro x
    rw [hmem' x, List.mem_dedup]
  have hlen : ts.length = names.dedup.length := by
    have := hperm.length_eq
    simpa [StringKeys] using this
  refine ⟨ts, hbuild, hnodup, hmem', hlen, ?_, ?_⟩
  · rw [scatterGather_results, List.length_map]
    exact hlen
  · intro hwf
    rw [scatterGather_log]
    refine List.map_congr_left ?_
    intro t ht
    have ht2 : t.2.2 = none := by
      rcases hval t ht with hin | ⟨ain, -, ht2⟩
      · simp at hin
      · rw [ht2]
        exact hwf ain
    rw [ht2]

/-- Witness for `one_outcome_per_distinct_name`: three requests over two
distinct names yield a two-outcome batch. -/
theorem one_outcome_per_distinct_name_witness :
    getNameToAinTable demoClient = .ok demoTable ∧
    (∀ n ∈ (["Lamp", "Plug", "Lamp"] : List String), missesName demoTable n = false) ∧
    ∃ ts, buildBacklog demoClient ["Lamp", "Plug", "Lamp"] demoWork = .ok ts ∧
      (StringKeys ts).Nodup ∧
      (∀ x, x ∈ StringKeys ts ↔ x ∈ (["Lamp", "Plug", "Lamp"] : List String)) ∧
      ts.length = (["Lamp", "Plug", "Lamp"] : List String).dedup.length ∧
      (scatterGather ts genericSuccessHandler genericErrorHandler).2.2.length =
        (["Lamp", "Plug", "Lamp"] : List String).dedup.length ∧
      ((∀ ain, (demoWork ain).2 = none) →
        (scatterGather ts genericSuccessHandler genericErrorHandler).2.1 =
          ts.map (fun t =>
            "Successfully processed device \x27" ++ t.1 ++ "\x27; response was: " ++
              t.2.1.trim)) :=
  ⟨rfl, by decide,
   one_outcome_per_distinct_name demoClient demoWork ["Lamp", "Plug", "Lamp"] demoTable
     rfl (by decide)⟩

/-- C8: for every device listing — in particular one containing two or more
devices with the same name — the directory mapping has unique keys and the
lookup of a name returns the space-stripped address of the device appearing
last in the listing with that name (`find?` over the reversed listing):
later entries overwrite earlier ones. -/
theorem duplicate_listing_last_wins (devs : List Device) (name : String) :
    (StringKeys (mkTable devs)).Nodup ∧
    mapGet (mkTable devs) name =
      (devs.reverse.find? (fun d => d.Name == name)).map
        (fun d => replaceAllSpaces d.Identifier) :=
  ⟨nodup_StringKeys_mkTable devs, mapGet_mkTable devs name⟩
